import Mathlib

/-!
Shallow embedding of the phidown Query Construction and Execution Engine.
The repository ships only documentation, a notebook and shell scripts; the
engine itself (search module) is not among the provided files, so the
definitions below are modelled from the specification of the engine and from
the behaviour documented in the repository docs (endpoints, operators,
date formats, default parameters).
-/

namespace Phidown

/-- Modelled from the spec: catalog mode of a search request, standard
product search or Sentinel-1 burst search (missing search module). -/
inductive Mode
  | product
  | burst
deriving DecidableEq

/-- Modelled from the spec: OData literal kind recorded in the Attribute
Type Registry (missing search module / config). -/
inductive AttrKind
  | stringK
  | integerK
  | decimalK
  | enumK (allowed : List String)
deriving DecidableEq

/-- Modelled from the spec: reason attached to a geometry validation
failure (missing geometry validation code). -/
inductive GeomError
  | notClosed
  | tooFewPoints
  | outOfRange
deriving DecidableEq

/-- Modelled from the spec: client-side compile-stage errors, raised before
any network call (missing search module). -/
inductive CompileError
  | invalidGeometry (reason : GeomError)
  | unknownAttribute (name : String)
  | invalidAttributeValue (name value : String)
  | dateFormat (value : String)
deriving DecidableEq

/-- Modelled from the spec: executor-stage errors (missing executor code). -/
inductive QueryError
  | rejected (code : Nat) (body : String)
  | unavailable
deriving DecidableEq

/-- Single quote character, used to quote OData string literals. -/
def sq : String := String.singleton (Char.ofNat 39)

/-- Modelled from the spec: percent-escaping of OData special characters in
string literals, percent itself and ampersand (missing search module). -/
def escapeList : List Char → List Char
  | [] => []
  | c :: rest =>
    if c = '%' then '%' :: '2' :: '5' :: escapeList rest
    else if c = '&' then '%' :: '2' :: '6' :: escapeList rest
    else c :: escapeList rest

/-- Modelled from the spec: inverse of the percent escaping, as applied when
a response value is read back (missing search module). -/
def unescapeList : List Char → List Char
  | [] => []
  | '%' :: '2' :: '5' :: r2 => '%' :: unescapeList r2
  | '%' :: '2' :: '6' :: r2 => '&' :: unescapeList r2
  | c :: rest => c :: unescapeList rest

/-- Percent-escape a string value for embedding in a compiled filter. -/
def odataEscape (s : String) : String := ⟨escapeList s.data⟩

/-- Undo the percent escaping on a value read back from a response. -/
def odataUnescape (s : String) : String := ⟨unescapeList s.data⟩

/-- Quote a string literal for OData, escaping special characters. -/
def quoteStr (s : String) : String := sq ++ odataEscape s ++ sq

/-- Character of the list at index i, with a default blank. -/
def chAt (l : List Char) (i : Nat) : Char := l.getD i ' '

/-- Tests that the character at index i is an ASCII digit. -/
def digitAt (l : List Char) (i : Nat) : Bool := (chAt l i).isDigit

/-- Position-wise checks of the bare ISO 8601 pattern, separators and
digit groups. -/
def isoShape (l : List Char) : Bool :=
  digitAt l 0 && digitAt l 1 && digitAt l 2 && digitAt l 3 &&
  (chAt l 4 == '-') && digitAt l 5 && digitAt l 6 && (chAt l 7 == '-') &&
  digitAt l 8 && digitAt l 9 && (chAt l 10 == 'T') && digitAt l 11 && digitAt l 12 &&
  (chAt l 13 == ':') && digitAt l 14 && digitAt l 15 && (chAt l 16 == ':') &&
  digitAt l 17 && digitAt l 18

/-- Modelled from the spec and the burst-mode documentation: the bare
ISO 8601 pattern YYYY-MM-DDTHH:MM:SS, 19 characters, no suffix
(missing date validation code). -/
def isBasicIsoChars (l : List Char) : Bool :=
  (l.length == 19) && isoShape l

/-- The millisecond-Zulu suffix that product mode tolerates. -/
def zSuffix : String := ".000Z"

/-- Modelled from the docs: the 24-character pattern with the .000Z suffix
(missing date validation code). -/
def isZuluChars (l : List Char) : Bool :=
  (l.length == 24) && isBasicIsoChars (l.take 19) && (l.drop 19 == zSuffix.data)

/-- Modelled from the spec and the burst-mode troubleshooting section:
product mode accepts both the bare pattern and the .000Z-suffixed pattern,
burst mode only the bare pattern (missing date validation code). -/
def validDate : Mode → String → Bool
  | .product, s => isBasicIsoChars s.data || isZuluChars s.data
  | .burst, s => isBasicIsoChars s.data

/-- A polygon vertex, longitude and latitude in EPSG:4326. -/
structure Point where
  lon : Rat
  lat : Rat
deriving DecidableEq

/-- Coordinate bounds check for one vertex. -/
def inBounds (p : Point) : Bool :=
  decide (-180 ≤ p.lon) && decide (p.lon ≤ 180) &&
  decide (-90 ≤ p.lat) && decide (p.lat ≤ 90)

/-- Modelled from the spec: the Geometry Validator, checking closure of the
ring, a minimum of 4 points and coordinate bounds (missing geometry code). -/
def validatePolygon (ring : List Point) : Except GeomError (List Point) :=
  if ring.head? ≠ ring.getLast? then .error .notClosed
  else if ring.length < 4 then .error .tooFewPoints
  else if ring.all inBounds then .ok ring
  else .error .outOfRange

/-- Modelled from the docs: product-mode entries of the Attribute Type
Registry (missing config file). -/
def productAttrs : List (String × AttrKind) :=
  [("processingLevel", .stringK),
   ("operationalMode", .stringK),
   ("swathIdentifier", .stringK),
   ("polarisationChannels", .stringK),
   ("platformSerialIdentifier", .stringK),
   ("timeliness", .stringK),
   ("relativeOrbitNumber", .integerK),
   ("cloudCover", .decimalK),
   ("orbitDirection", .enumK ["ASCENDING", "DESCENDING"])]

/-- Modelled from the docs: burst-mode entries of the Attribute Type
Registry (missing config file). -/
def burstAttrs : List (String × AttrKind) :=
  [("BurstId", .integerK),
   ("AbsoluteBurstId", .integerK),
   ("RelativeOrbitNumber", .integerK),
   ("SwathIdentifier", .enumK ["IW1", "IW2", "IW3", "EW1", "EW2", "EW3", "EW4", "EW5"]),
   ("ParentProductType", .enumK ["IW_SLC__1S", "EW_SLC__1S"]),
   ("OperationalMode", .enumK ["IW", "EW"]),
   ("PolarisationChannels", .enumK ["VV", "VH", "HH", "HV"]),
   ("ParentProductName", .stringK),
   ("PlatformSerialIdentifier", .stringK)]

/-- Modelled from the spec: Attribute Type Registry lookup keyed by mode
and attribute name (missing search module). -/
def registryLookup : Mode → String → Option AttrKind
  | .product, name => productAttrs.lookup name
  | .burst, name => burstAttrs.lookup name

/-- Tests that the string is a nonempty run of digits, optionally signed. -/
def isIntString (s : String) : Bool :=
  match s.data with
  | [] => false
  | '-' :: rest => !rest.isEmpty && rest.all Char.isDigit
  | l => l.all Char.isDigit

/-- Tests that the string parses as a decimal number. -/
def isDecString (s : String) : Bool :=
  let core := fun (l : List Char) =>
    !l.isEmpty && l.all (fun c => c.isDigit || c == '.') && (l.count '.' ≤ 1)
  match s.data with
  | '-' :: rest => core rest
  | l => core l

/-- Modelled from the spec: format one attribute value as an OData literal
per its registry kind, validating the value (missing search module). -/
def formatLiteral (k : AttrKind) (name value : String) : Except CompileError String :=
  match k with
  | .stringK => .ok (quoteStr value)
  | .integerK =>
    if isIntString value then .ok value else .error (.invalidAttributeValue name value)
  | .decimalK =>
    if isDecString value then .ok value else .error (.invalidAttributeValue name value)
  | .enumK allowed =>
    if value ∈ allowed then .ok (quoteStr value)
    else .error (.invalidAttributeValue name value)

/-- OData path fragment naming the typed attribute collection. -/
def kindPath : AttrKind → String
  | .stringK => "StringAttribute"
  | .integerK => "IntegerAttribute"
  | .decimalK => "DoubleAttribute"
  | .enumK _ => "StringAttribute"

/-- Modelled from the spec: one attribute clause; product mode uses the
nested any-attribute shape, burst mode a flat field equality (missing
search module). -/
def attrClause (m : Mode) (k : AttrKind) (name lit : String) : String :=
  match m with
  | .burst => name ++ " eq " ++ lit
  | .product =>
    "Attributes/OData.CSC." ++ kindPath k ++ "/any(att:att/Name eq " ++
    sq ++ name ++ sq ++ " and att/OData.CSC." ++ kindPath k ++
    "/Value eq " ++ lit ++ ")"

/-- Modelled from the spec: classify every attribute of the request via the
registry and emit its clause, failing fast on the first bad entry (missing
search module). -/
def compileAttrs (m : Mode) : List (String × String) → Except CompileError (List String)
  | [] => .ok []
  | (n, v) :: rest =>
    match registryLookup m n with
    | none => .error (.unknownAttribute n)
    | some k =>
      match formatLiteral k n v with
      | .error e => .error e
      | .ok lit =>
        match compileAttrs m rest with
        | .error e => .error e
        | .ok cs => .ok (attrClause m k n lit :: cs)

/-- Comparison operator pair for the date range, by mode. -/
def dateOps : Mode → String × String
  | .product => ("gt", "lt")
  | .burst => ("ge", "le")

/-- Date clause on the content date start field. -/
def dateClause (op d : String) : String := "ContentDate/Start " ++ op ++ " " ++ d

/-- Modelled from the spec: validate the dates per mode and emit the
range clauses with the mode-appropriate operator pair (missing search
module). -/
def compileDates (m : Mode) : Option String → Option String → Except CompileError (List String)
  | none, none => .ok []
  | some s, none =>
    if validDate m s then .ok [dateClause (dateOps m).1 s] else .error (.dateFormat s)
  | none, some e =>
    if validDate m e then .ok [dateClause (dateOps m).2 e] else .error (.dateFormat e)
  | some s, some e =>
    if validDate m s then
      if validDate m e then .ok [dateClause (dateOps m).1 s, dateClause (dateOps m).2 e]
      else .error (.dateFormat e)
    else .error (.dateFormat s)

/-- WKT text of a validated ring. -/
def wktOf (ring : List Point) : String :=
  "POLYGON((" ++
  String.intercalate ", " (ring.map (fun p => toString p.lon ++ " " ++ toString p.lat)) ++
  "))"

/-- Modelled from the spec: validate the optional area of interest and emit
the spatial-intersects clause (missing search module). -/
def compileGeom : Option (List Point) → Except CompileError (List String)
  | none => .ok []
  | some ring =>
    match validatePolygon ring with
    | .error g => .error (.invalidGeometry g)
    | .ok r =>
      .ok ["OData.CSC.Intersects(area=geography" ++ sq ++ "SRID=4326;" ++ wktOf r ++ sq ++ ")"]

/-- Orbit direction enumeration. -/
inductive OrbitDir
  | ascending
  | descending
deriving DecidableEq

/-- Catalog token for an orbit direction. -/
def dirToString : OrbitDir → String
  | .ascending => "ASCENDING"
  | .descending => "DESCENDING"

/-- Modelled from the spec: the orbit-direction clause, whose target field
shape differs by mode (missing search module). -/
def orbitClauses (m : Mode) : Option OrbitDir → List String
  | none => []
  | some d =>
    match m with
    | .product =>
      [attrClause .product (.enumK ["ASCENDING", "DESCENDING"]) "orbitDirection"
        (quoteStr (dirToString d))]
    | .burst => ["OrbitDirection eq " ++ quoteStr (dirToString d)]

/-- Modelled from the spec: a search request, with the defaults the public
query entry point applies when an argument is not given (missing search
module). -/
structure SearchRequest where
  mode : Mode := .product
  collectionName : Option String := none
  productType : Option String := none
  orbitDirection : Option OrbitDir := none
  startDate : Option String := none
  endDate : Option String := none
  aoi : Option (List Point) := none
  attributes : List (String × String) := []
  top : Nat := 1000
  wantCount : Bool := false
  orderBy : Option String := none

/-- Modelled from the spec: the compiled filter, clauses in a fixed order
plus the resolved endpoint and query options (missing search module). -/
structure CompiledFilter where
  endpoint : String
  clauses : List String
  expandAttributes : Bool
  orderBy : String
  top : Nat
  wantCount : Bool
deriving DecidableEq

/-- Products endpoint of the catalog service. -/
def productsUrl : String := "https://catalogue.dataspace.copernicus.eu/odata/v1/Products"

/-- Bursts endpoint of the catalog service. -/
def burstsUrl : String := "https://catalogue.dataspace.copernicus.eu/odata/v1/Bursts"

/-- Endpoint selected for a mode. -/
def endpointUrl : Mode → String
  | .product => productsUrl
  | .burst => burstsUrl

/-- Default sort expression applied when the caller gives none. -/
def defaultOrderBy : String := "ContentDate/Start desc"

/-- Equality clauses for the collection name and product type when given. -/
def baseClauses (r : SearchRequest) : List String :=
  (match r.collectionName with
   | some c => ["Collection/Name eq " ++ quoteStr c]
   | none => []) ++
  (match r.productType with
   | some t => ["ProductType eq " ++ quoteStr t]
   | none => [])

/-- Modelled from the spec: the pure Filter Compiler; validates geometry,
attributes and dates, then assembles the clauses in a fixed order and
resolves the endpoint and options by mode (missing search module). -/
def compile (r : SearchRequest) : Except CompileError CompiledFilter :=
  match compileGeom r.aoi, compileAttrs r.mode r.attributes,
        compileDates r.mode r.startDate r.endDate with
  | .ok gc, .ok ac, .ok dc =>
    .ok { endpoint := endpointUrl r.mode
          clauses := baseClauses r ++ dc ++ orbitClauses r.mode r.orbitDirection ++ gc ++ ac
          expandAttributes := r.mode == .product && !r.attributes.isEmpty
          orderBy := r.orderBy.getD defaultOrderBy
          top := r.top
          wantCount := r.wantCount }
  | .error e, _, _ => .error e
  | .ok _, .error e, _ => .error e
  | .ok _, .ok _, .error e => .error e

/-- The AND-joined filter expression of a compiled filter. -/
def filterString (f : CompiledFilter) : String :=
  String.intercalate " and " f.clauses

/-- Modelled from the spec: the query parameters sent with a page request;
the attribute expansion parameter appears only when the compiled filter
asks for it (missing search module). -/
def queryParams (f : CompiledFilter) : List (String × String) :=
  [("$filter", filterString f), ("$orderby", f.orderBy), ("$top", toString f.top)] ++
  (if f.wantCount then [("$count", "true")] else []) ++
  (if f.expandAttributes then [("$expand", "Attributes")] else [])

/-- Full query string of a compiled filter, for byte-identity statements. -/
def queryString (f : CompiledFilter) : String :=
  f.endpoint ++ "?" ++
  String.intercalate "&" ((queryParams f).map (fun p => p.1 ++ "=" ++ p.2))

/-- Modelled from the spec: one raw catalog record, flat fields plus the
nested name-value attribute array of product mode (missing result
normalization code). -/
structure Record where
  fields : List (String × String)
  attributes : List (String × String)
deriving DecidableEq

/-- Modelled from the spec: the Result Normalizer hoists each nested
attribute to a top-level column next to the flat fields (missing result
normalization code). -/
def normalizeRecord (r : Record) : List (String × String) :=
  r.fields ++ r.attributes

/-- Server-imposed cap on the records of a single page. -/
def pageCap : Nat := 1000

/-- Modelled from the spec: the pagination loop of the Query Executor; each
iteration requests one page at the current skip offset, asking for at most
the cap and at most the outstanding remainder, accumulates the page, stops
when the remainder is filled or a page comes back short of the cap, and
otherwise advances the skip by the cap. Returns the issued skip offsets and
the accumulated records (missing executor code). -/
def qloop (data : List Record) (cap : Nat) : Nat → Nat → Nat → List Nat × List Record
  | 0, _, _ => ([], [])
  | fuel + 1, skip, remaining =>
    if remaining = 0 then ([], [])
    else
      if ((data.drop skip).take (min cap remaining)).length < cap then
        ([skip], (data.drop skip).take (min cap remaining))
      else
        (skip :: (qloop data cap fuel (skip + cap)
            (remaining - ((data.drop skip).take (min cap remaining)).length)).1,
         (data.drop skip).take (min cap remaining) ++
           (qloop data cap fuel (skip + cap)
             (remaining - ((data.drop skip).take (min cap remaining)).length)).2)

/-- Modelled from the spec: execute a query for at most top records against
a stub service holding data, capped at cap records per page (missing
executor code). -/
def executeQuery (data : List Record) (cap top : Nat) : List Nat × List Record :=
  qloop data cap top 0 top

/-- One simulated HTTP outcome observed by the retry loop. -/
inductive HttpResp
  | timeout
  | status (code : Nat) (body : String)
deriving DecidableEq

/-- A response the retry loop treats as transient. -/
def isTransient : HttpResp → Bool
  | .timeout => true
  | .status c _ => (500 ≤ c) || (c == 429)

/-- Retry attempt ceiling of the executor. -/
def maxAttempts : Nat := 5

/-- Bounded exponential backoff schedule: the delay before retry i doubles
each time. -/
def backoffDelays (n : Nat) : List Nat := (List.range n).map (fun i => 2 ^ i)

/-- Modelled from the spec: the retry loop of the Query Executor; success
returns the body with the retries spent, transient outcomes (timeout, 5xx,
429) consume one attempt and retry, any other 4xx raises the rejection
error with the status and body at once, and an exhausted attempt budget
raises the unavailable error (missing executor code). -/
def retryLoop : Nat → List HttpResp → Nat → Except QueryError (String × Nat)
  | 0, _, _ => .error .unavailable
  | fuel + 1, rs, retries =>
    match rs with
    | [] => retryLoop fuel [] (retries + 1)
    | .timeout :: rest => retryLoop fuel rest (retries + 1)
    | .status c b :: rest =>
      if 200 ≤ c ∧ c < 300 then .ok (b, retries)
      else if 500 ≤ c ∨ c = 429 then retryLoop fuel rest (retries + 1)
      else .error (.rejected c b)

/-- Execute one request with the full attempt budget, against a simulated
sequence of HTTP outcomes. -/
def executeWithRetry (rs : List HttpResp) : Except QueryError (String × Nat) :=
  retryLoop maxAttempts rs 0

/-- Modelled from the spec: the compile-then-execute pipeline of the Search
Session; on a compile error no page request is issued at all. Returns the
outcome together with the number of HTTP page requests made (missing search
module). -/
def searchPipeline (r : SearchRequest) (data : List Record) :
    Except CompileError (List (List (String × String))) × Nat :=
  match compile r with
  | .error e => (.error e, 0)
  | .ok f =>
    let t := executeQuery data pageCap f.top
    (.ok (t.2.map normalizeRecord), t.1.length)

/-- Name of a record, read from its canonical name field. -/
def nameOf (r : Record) : String := (r.fields.lookup "Name").getD ""

/-- Modelled from the spec: the degenerate exact-name lookup path, a single
equality clause on the canonical name field with an implicit top of one,
evaluated against a stub catalog (missing search module). -/
def execNameQuery (catalog : List Record) (pname : String) : List Record :=
  (catalog.filter (fun rec => nameOf rec == pname)).take 1

/-- Modelled from the spec and the notebook: query by exact product name;
a name matching no record yields an ok empty table, never an error
(missing search module). -/
def queryByName (catalog : List Record) (pname : String) :
    Except QueryError (List (List (String × String))) :=
  .ok ((execNameQuery catalog pname).map normalizeRecord)

theorem qloop_zero (data : List Record) (cap fuel skip : Nat) :
    qloop data cap fuel skip 0 = ([], []) := by
  cases fuel <;> simp [qloop]

theorem compile_ok_elim (r : SearchRequest) (f : CompiledFilter) (h : compile r = .ok f) :
    ∃ gc ac dc, compileGeom r.aoi = .ok gc ∧ compileAttrs r.mode r.attributes = .ok ac ∧
      compileDates r.mode r.startDate r.endDate = .ok dc ∧
      f = { endpoint := endpointUrl r.mode
            clauses := baseClauses r ++ dc ++ orbitClauses r.mode r.orbitDirection ++ gc ++ ac
            expandAttributes := r.mode == .product && !r.attributes.isEmpty
            orderBy := r.orderBy.getD defaultOrderBy
            top := r.top
            wantCount := r.wantCount } := by
  unfold compile at h
  split at h
  case _ gc ac dc hg ha hd =>
    exact ⟨gc, ac, dc, hg, ha, hd, (Except.ok.inj h).symm⟩
  all_goals exact absurd h (by simp)

theorem compileDates_both_elim (m : Mode) (s e : String) (dc : List String)
    (h : compileDates m (some s) (some e) = .ok dc) :
    dc = [dateClause (dateOps m).1 s, dateClause (dateOps m).2 e] := by
  simp only [compileDates] at h
  split at h
  · split at h
    · exact (Except.ok.inj h).symm
    · exact absurd h (by simp)
  · exact absurd h (by simp)

/-- Claim C1: with both dates present and identical start and end dates,
the compiled date-range clauses use the operators gt and lt in product
mode and ge and le in burst mode. -/
theorem date_range_operators_by_mode (s e : String) (rP rB : SearchRequest)
    (fP fB : CompiledFilter)
    (hmP : rP.mode = .product) (hsP : rP.startDate = some s) (heP : rP.endDate = some e)
    (hcP : compile rP = .ok fP)
    (hmB : rB.mode = .burst) (hsB : rB.startDate = some s) (heB : rB.endDate = some e)
    (hcB : compile rB = .ok fB) :
    dateClause "gt" s ∈ fP.clauses ∧ dateClause "lt" e ∈ fP.clauses ∧
    dateClause "ge" s ∈ fB.clauses ∧ dateClause "le" e ∈ fB.clauses := by
  obtain ⟨gcP, acP, dcP, _, _, hdP, hfP⟩ := compile_ok_elim rP fP hcP
  obtain ⟨gcB, acB, dcB, _, _, hdB, hfB⟩ := compile_ok_elim rB fB hcB
  rw [hmP, hsP, heP] at hdP
  rw [hmB, hsB, heB] at hdB
  have hvP := compileDates_both_elim _ _ _ _ hdP
  have hvB := compileDates_both_elim _ _ _ _ hdB
  subst hfP hfB hvP hvB
  simp [dateOps, List.mem_append]

/-- Claim C1 witness: concrete product and burst requests over the same
date pair carry the mode-appropriate operators. -/
theorem date_range_operators_by_mode_witness :
    dateClause "gt" "2023-05-01T00:00:00" ∈
      (⟨productsUrl,
        [dateClause "gt" "2023-05-01T00:00:00", dateClause "lt" "2023-05-02T00:00:00"],
        false, defaultOrderBy, 1000, false⟩ : CompiledFilter).clauses ∧
    dateClause "ge" "2023-05-01T00:00:00" ∈
      (⟨burstsUrl,
        [dateClause "ge" "2023-05-01T00:00:00", dateClause "le" "2023-05-02T00:00:00"],
        false, defaultOrderBy, 1000, false⟩ : CompiledFilter).clauses := by
  have h := date_range_operators_by_mode "2023-05-01T00:00:00" "2023-05-02T00:00:00"
    { mode := .product, startDate := some "2023-05-01T00:00:00",
      endDate := some "2023-05-02T00:00:00" }
    { mode := .burst, startDate := some "2023-05-01T00:00:00",
      endDate := some "2023-05-02T00:00:00" }
    (⟨productsUrl,
      [dateClause "gt" "2023-05-01T00:00:00", dateClause "lt" "2023-05-02T00:00:00"],
      false, defaultOrderBy, 1000, false⟩)
    (⟨burstsUrl,
      [dateClause "ge" "2023-05-01T00:00:00", dateClause "le" "2023-05-02T00:00:00"],
      false, defaultOrderBy, 1000, false⟩)
    rfl rfl rfl rfl rfl rfl rfl rfl
  exact ⟨h.1, h.2.2.1⟩

/-- Claim C6: compile is deterministic, identical requests give identical
compiled filters and byte-identical query strings, and the clauses are
AND-joined in the fixed documented order. -/
theorem compile_deterministic (r1 r2 : SearchRequest) (h : r1 = r2) :
    compile r1 = compile r2 ∧
    (compile r1).map queryString = (compile r2).map queryString ∧
    (∀ f gc ac dc, compile r1 = .ok f →
      compileGeom r1.aoi = .ok gc →
      compileAttrs r1.mode r1.attributes = .ok ac →
      compileDates r1.mode r1.startDate r1.endDate = .ok dc →
      f.clauses = baseClauses r1 ++ dc ++ orbitClauses r1.mode r1.orbitDirection ++ gc ++ ac ∧
      filterString f = String.intercalate " and " f.clauses) := by
  subst h
  refine ⟨rfl, rfl, ?_⟩
  intro f gc ac dc hf hg ha hd
  obtain ⟨gc2, ac2, dc2, hg2, ha2, hd2, hfe⟩ := compile_ok_elim r1 f hf
  rw [hg] at hg2
  rw [ha] at ha2
  rw [hd] at hd2
  obtain rfl := Except.ok.inj hg2
  obtain rfl := Except.ok.inj ha2
  obtain rfl := Except.ok.inj hd2
  subst hfe
  exact ⟨rfl, rfl⟩

/-- Claim C6 witness: a concrete request compiled twice gives the same
filter, the same query string, and the fixed clause order. -/
theorem compile_deterministic_witness :
    compile { collectionName := some "SENTINEL-1" } =
      compile { collectionName := some "SENTINEL-1" } ∧
    (compile { collectionName := some "SENTINEL-1" }).map queryString =
      (compile { collectionName := some "SENTINEL-1" }).map queryString := by
  have h := compile_deterministic { collectionName := some "SENTINEL-1" }
    { collectionName := some "SENTINEL-1" } rfl
  exact ⟨h.1, h.2.1⟩

/-- Claim C3: the endpoint is selected by mode, burst-mode queries never
carry the attribute expansion parameter, and product-mode queries carry it
whenever the attribute map is non-empty. -/
theorem endpoint_and_expand_by_mode (r : SearchRequest) (f : CompiledFilter)
    (hc : compile r = .ok f) :
    (r.mode = .product → f.endpoint = productsUrl) ∧
    (r.mode = .burst → f.endpoint = burstsUrl) ∧
    (r.mode = .burst → ("$expand", "Attributes") ∉ queryParams f) ∧
    (r.mode = .product → r.attributes ≠ [] → ("$expand", "Attributes") ∈ queryParams f) := by
  obtain ⟨gc, ac, dc, _, _, _, hfe⟩ := compile_ok_elim r f hc
  subst hfe
  refine ⟨fun hm => by rw [hm]; rfl, fun hm => by rw [hm]; rfl, ?_, ?_⟩
  · intro hm
    rw [hm]
    have hflag : (Mode.burst == Mode.product) = false := rfl
    simp [queryParams, hflag, List.mem_append]
  · intro hm hne
    rw [hm]
    have hflag : (Mode.product == Mode.product) = true := rfl
    have hemp : r.attributes.isEmpty = false := by
      simpa [List.isEmpty_iff] using hne
    simp [queryParams, hflag, hemp, List.mem_append]

/-- Claim C3 witness: a concrete burst request compiles without the
expansion parameter and a concrete product request with an attribute
carries it. -/
theorem endpoint_and_expand_by_mode_witness :
    ("$expand", "Attributes") ∉
      queryParams (⟨burstsUrl, [attrClause .burst (.enumK ["VV", "VH", "HH", "HV"])
        "PolarisationChannels" (quoteStr "VV")], false, defaultOrderBy, 1000, false⟩ :
        CompiledFilter) ∧
    ("$expand", "Attributes") ∈
      queryParams (⟨productsUrl, [attrClause .product .stringK "processingLevel"
        (quoteStr "LEVEL0")], true, defaultOrderBy, 1000, false⟩ : CompiledFilter) := by
  have h1 := endpoint_and_expand_by_mode
    { mode := .burst, attributes := [("PolarisationChannels", "VV")] }
    (⟨burstsUrl, [attrClause .burst (.enumK ["VV", "VH", "HH", "HV"])
      "PolarisationChannels" (quoteStr "VV")], false, defaultOrderBy, 1000, false⟩)
    rfl
  have h2 := endpoint_and_expand_by_mode
    { mode := .product, attributes := [("processingLevel", "LEVEL0")] }
    (⟨productsUrl, [attrClause .product .stringK "processingLevel"
      (quoteStr "LEVEL0")], true, defaultOrderBy, 1000, false⟩)
    rfl
  exact ⟨h1.2.2.1 rfl, h2.2.2.2 rfl (by simp)⟩

/-- Claim C9: a request left at the defaults is in product mode with no
explicit sort; compiling any such request targets the Products endpoint
and uses the default content-date descending sort. -/
theorem default_product_mode_and_order :
    ({} : SearchRequest).mode = .product ∧ ({} : SearchRequest).orderBy = none ∧
    (∀ (r : SearchRequest) (f : CompiledFilter),
      r.mode = .product → r.orderBy = none → compile r = .ok f →
      f.endpoint = "https://catalogue.dataspace.copernicus.eu/odata/v1/Products" ∧
      f.orderBy = "ContentDate/Start desc") := by
  refine ⟨rfl, rfl, ?_⟩
  intro r f hm ho hc
  obtain ⟨gc, ac, dc, _, _, _, hfe⟩ := compile_ok_elim r f hc
  subst hfe
  rw [hm, ho]
  exact ⟨rfl, rfl⟩

/-- Claim C9 witness: the all-defaults request compiles to the Products
endpoint with the default sort expression. -/
theorem default_product_mode_and_order_witness :
    (⟨productsUrl, [], false, defaultOrderBy, 1000, false⟩ : CompiledFilter).endpoint =
      "https://catalogue.dataspace.copernicus.eu/odata/v1/Products" ∧
    (⟨productsUrl, [], false, defaultOrderBy, 1000, false⟩ : CompiledFilter).orderBy =
      "ContentDate/Start desc" :=
  default_product_mode_and_order.2.2 {}
    (⟨productsUrl, [], false, defaultOrderBy, 1000, false⟩) rfl rfl rfl

theorem unescapeList_cons_ne (c : Char) (l : List Char) (h : ¬c = '%') :
    unescapeList (c :: l) = c :: unescapeList l := by
  rw [unescapeList.eq_def]
  split <;> simp_all

theorem unescape_escape_list (l : List Char) : unescapeList (escapeList l) = l := by
  induction l with
  | nil => rfl
  | cons c rest ih =>
    by_cases h5 : c = '%'
    · subst h5
      simp [escapeList, unescapeList, ih]
    · by_cases h6 : c = '&'
      · subst h6
        simp [escapeList, unescapeList, ih]
      · rw [escapeList]
        rw [if_neg h5, if_neg h6, unescapeList_cons_ne c _ h5, ih]

/-- Claim C7: a string attribute value containing an ampersand is emitted
percent-escaped inside the compiled filter clause, and unescaping the
escaped value recovers the original, as does normalizing a fabricated
matching response record. -/
theorem ampersand_escape_roundtrip (v : String) (r : SearchRequest) (f : CompiledFilter)
    (hamp : v.data.contains '&' = true)
    (hm : r.mode = .product) (hattrs : r.attributes = [("polarisationChannels", v)])
    (hc : compile r = .ok f) :
    attrClause .product .stringK "polarisationChannels" (quoteStr v) ∈ f.clauses ∧
    quoteStr v = sq ++ odataEscape v ++ sq ∧
    odataUnescape (odataEscape v) = v ∧
    (normalizeRecord ⟨[], [("polarisationChannels", v)]⟩).lookup "polarisationChannels" =
      some v := by
  obtain ⟨gc, ac, dc, _, ha, _, hfe⟩ := compile_ok_elim r f hc
  rw [hm, hattrs] at ha
  have hcomp : compileAttrs .product [("polarisationChannels", v)] =
      .ok [attrClause .product .stringK "polarisationChannels" (quoteStr v)] := rfl
  rw [hcomp] at ha
  obtain rfl := Except.ok.inj ha
  subst hfe
  refine ⟨by simp [List.mem_append], rfl, ?_, ?_⟩
  · cases v with
    | mk dataL =>
      show (⟨unescapeList (escapeList dataL)⟩ : String) = ⟨dataL⟩
      rw [unescape_escape_list]
  · simp [normalizeRecord, List.lookup]

/-- Claim C7 witness: the dual-polarization token with an ampersand is
escaped in the compiled clause and round-trips through normalization. -/
theorem ampersand_escape_roundtrip_witness :
    odataEscape "VV&VH" = "VV%26VH" ∧
    (attrClause .product .stringK "polarisationChannels" (quoteStr "VV&VH") ∈
      (⟨productsUrl,
        [attrClause .product .stringK "polarisationChannels" (quoteStr "VV&VH")],
        true, defaultOrderBy, 1000, false⟩ : CompiledFilter).clauses ∧
      odataUnescape (odataEscape "VV&VH") = "VV&VH") := by
  have h := ampersand_escape_roundtrip "VV&VH"
    { attributes := [("polarisationChannels", "VV&VH")] }
    (⟨productsUrl,
      [attrClause .product .stringK "polarisationChannels" (quoteStr "VV&VH")],
      true, defaultOrderBy, 1000, false⟩)
    (by decide) rfl rfl rfl
  exact ⟨by decide, h.1, h.2.2.1⟩

theorem isBasicIso_length (l : List Char) (h : isBasicIsoChars l = true) :
    l.length = 19 := by
  simp [isBasicIsoChars] at h
  exact h.1

/-- Claim C8: burst mode requires the bare ISO 8601 date pattern; a date
carrying the .000Z suffix is accepted by the product-mode validator but
makes a burst-mode request fail with a date format error instead of
compiling. -/
theorem burst_zulu_date_rejected (d : String) (r : SearchRequest)
    (hiso : isBasicIsoChars d.data = true)
    (hm : r.mode = .burst) (hs : r.startDate = some (d ++ zSuffix))
    (haoi : r.aoi = none) (hattrs : r.attributes = []) :
    compile r = .error (.dateFormat (d ++ zSuffix)) ∧
    validDate .product (d ++ zSuffix) = true ∧
    validDate .burst (d ++ zSuffix) = false := by
  have hlen : d.data.length = 19 := isBasicIso_length _ hiso
  have hdata : (d ++ zSuffix).data = d.data ++ zSuffix.data := String.data_append d zSuffix
  have hz : zSuffix.data = ['.', '0', '0', '0', 'Z'] := rfl
  have hbad : validDate .burst (d ++ zSuffix) = false := by
    simp [validDate, isBasicIsoChars, hdata, hz, hlen]
  have ht19 : (d.data ++ zSuffix.data).take 19 = d.data := by
    rw [← hlen]
    exact List.take_left d.data zSuffix.data
  have hd19 : (d.data ++ zSuffix.data).drop 19 = zSuffix.data := by
    rw [← hlen]
    exact List.drop_left d.data zSuffix.data
  have hgood : validDate .product (d ++ zSuffix) = true := by
    simp [validDate, isZuluChars, hdata, ht19, hd19, hiso, hz, hlen]
  refine ⟨?_, hgood, hbad⟩
  have hdates : compileDates Mode.burst r.startDate r.endDate =
      .error (.dateFormat (d ++ zSuffix)) := by
    rw [hs]
    cases r.endDate with
    | none => simp [compileDates, hbad]
    | some e2 => simp [compileDates, hbad]
  unfold compile
  rw [hm, haoi, hattrs, hdates]
  rfl

/-- Claim C8 witness: a concrete burst request whose start date carries the
.000Z suffix fails with a date format error, while the product validator
accepts that date. -/
theorem burst_zulu_date_rejected_witness :
    compile { mode := .burst, startDate := some ("2024-08-01T00:00:00" ++ zSuffix) } =
      .error (.dateFormat ("2024-08-01T00:00:00" ++ zSuffix)) ∧
    validDate .product ("2024-08-01T00:00:00" ++ zSuffix) = true ∧
    validDate .burst ("2024-08-01T00:00:00" ++ zSuffix) = false :=
  burst_zulu_date_rejected "2024-08-01T00:00:00"
    { mode := .burst, startDate := some ("2024-08-01T00:00:00" ++ zSuffix) }
    (by decide) rfl rfl rfl rfl

theorem compileAttrs_unknown (m : Mode) (attrs : List (String × String)) (n v : String)
    (hmem : (n, v) ∈ attrs) (hnone : registryLookup m n = none)
    (hok : ∀ p ∈ attrs, ∀ k, registryLookup m p.1 = some k →
      ∃ lit, formatLiteral k p.1 p.2 = .ok lit) :
    ∃ n2, compileAttrs m attrs = .error (.unknownAttribute n2) := by
  induction attrs with
  | nil => simp at hmem
  | cons p rest ih =>
    obtain ⟨n1, v1⟩ := p
    cases hl : registryLookup m n1 with
    | none => exact ⟨n1, by simp [compileAttrs, hl]⟩
    | some k =>
      obtain ⟨lit, hlit⟩ := hok (n1, v1) (List.mem_cons_self _ _) k hl
      have hmem2 : (n, v) ∈ rest := by
        rcases List.mem_cons.mp hmem with heq | h2
        · exfalso
          obtain ⟨h1, _⟩ := Prod.mk.inj heq
          rw [← h1] at hl
          rw [hnone] at hl
          exact Option.noConfusion hl
        · exact h2
      obtain ⟨n2, h2⟩ := ih hmem2
        (fun p hp k2 hk2 => hok p (List.mem_cons_of_mem _ hp) k2 hk2)
      exact ⟨n2, by simp [compileAttrs, hl, hlit, h2]⟩

/-- Claim C5: a malformed area-of-interest polygon or an attribute name
not registered for the active mode raises the corresponding client-side
error and the pipeline issues zero HTTP page requests. -/
theorem client_errors_no_http (r : SearchRequest) (data : List Record)
    (ring : List Point) (g : GeomError) (n v : String) :
    (r.aoi = some ring → validatePolygon ring = .error g →
      searchPipeline r data = (.error (.invalidGeometry g), 0)) ∧
    ((∃ gc, compileGeom r.aoi = .ok gc) → (n, v) ∈ r.attributes →
      registryLookup r.mode n = none →
      (∀ p ∈ r.attributes, ∀ k, registryLookup r.mode p.1 = some k →
        ∃ lit, formatLiteral k p.1 p.2 = .ok lit) →
      ∃ n2, searchPipeline r data = (.error (.unknownAttribute n2), 0)) := by
  constructor
  · intro haoi hval
    have hg : compileGeom r.aoi = .error (.invalidGeometry g) := by
      rw [haoi]
      simp [compileGeom, hval]
    have hcomp : compile r = .error (.invalidGeometry g) := by
      unfold compile
      rw [hg]
    simp [searchPipeline, hcomp]
  · intro hgc hmem hnone hok
    obtain ⟨gc, hg⟩ := hgc
    obtain ⟨n2, ha⟩ := compileAttrs_unknown r.mode r.attributes n v hmem hnone hok
    have hcomp : compile r = .error (.unknownAttribute n2) := by
      unfold compile
      rw [hg, ha]
    exact ⟨n2, by simp [searchPipeline, hcomp]⟩

/-- Claim C5 witness: a non-closed ring and an unregistered attribute name
both fail client-side with zero HTTP page requests. -/
theorem client_errors_no_http_witness :
    searchPipeline { aoi := some [⟨0, 0⟩, ⟨1, 0⟩, ⟨1, 1⟩, ⟨0, 1⟩] } [] =
      (.error (.invalidGeometry .notClosed), 0) ∧
    (∃ n2, searchPipeline { attributes := [("bogusName", "1")] } [] =
      (.error (.unknownAttribute n2), 0)) := by
  have h1 := (client_errors_no_http { aoi := some [⟨0, 0⟩, ⟨1, 0⟩, ⟨1, 1⟩, ⟨0, 1⟩] } []
    [⟨0, 0⟩, ⟨1, 0⟩, ⟨1, 1⟩, ⟨0, 1⟩] .notClosed "x" "y").1 rfl rfl
  have h2 := (client_errors_no_http { attributes := [("bogusName", "1")] } []
    [] .notClosed "bogusName" "1").2 ⟨[], rfl⟩ (by simp) rfl
    (by
      intro p hp k hk
      simp at hp
      subst hp
      simp [registryLookup, productAttrs, List.lookup] at hk)
  exact ⟨h1, h2⟩

/-- Claim C10: an exact-name query whose name matches no catalog record
returns an ok empty table rather than an error. -/
theorem queryByName_not_found_empty (catalog : List Record) (pname : String)
    (h : ∀ rec ∈ catalog, nameOf rec ≠ pname) :
    queryByName catalog pname = .ok [] := by
  have hf : catalog.filter (fun rec => nameOf rec == pname) = [] := by
    rw [List.filter_eq_nil_iff]
    intro a ha
    simp [h a ha]
  simp [queryByName, execNameQuery, hf]

/-- Claim C10 witness: a one-record catalog queried with a different name
yields the ok empty result. -/
theorem queryByName_not_found_empty_witness :
    queryByName [⟨[("Name", "S1A_PRODUCT_A")], []⟩] "S1B_PRODUCT_B" = .ok [] :=
  queryByName_not_found_empty [⟨[("Name", "S1A_PRODUCT_A")], []⟩] "S1B_PRODUCT_B"
    (by decide)

theorem retry_all_transient (fuel : Nat) : ∀ (rs : List HttpResp) (retries : Nat),
    (∀ x ∈ rs, isTransient x = true) → retryLoop fuel rs retries = .error .unavailable := by
  induction fuel with
  | zero => intro rs retries _; rfl
  | succ fuel ih =>
    intro rs retries h
    match rs with
    | [] =>
      simp only [retryLoop]
      exact ih [] (retries + 1) (by simp)
    | .timeout :: rest =>
      simp only [retryLoop]
      exact ih rest (retries + 1) (fun x hx => h x (List.mem_cons_of_mem _ hx))
    | .status c b :: rest =>
      have htr := h (.status c b) (List.mem_cons_self _ _)
      simp [isTransient] at htr
      simp only [retryLoop]
      rw [if_neg (by omega), if_pos (by omega)]
      exact ih rest (retries + 1) (fun x hx => h x (List.mem_cons_of_mem _ hx))

/-- Claim C4: a non-429 4xx response is never retried and rejects at once
with the status and body, an all-transient run of outcomes exhausts the
attempt ceiling and raises the unavailable error, the backoff schedule
doubles at each retry, and a 429 followed by a 200 succeeds with exactly
one retry. -/
theorem retry_policy (fuel retries c : Nat) (b body : String)
    (rest rs : List HttpResp) :
    (400 ≤ c → c < 500 → c ≠ 429 →
      retryLoop (fuel + 1) (.status c b :: rest) retries = .error (.rejected c b)) ∧
    ((∀ x ∈ rs, isTransient x = true) → retryLoop fuel rs retries = .error .unavailable) ∧
    (backoffDelays (retries + 1) = backoffDelays retries ++ [2 ^ retries]) ∧
    executeWithRetry [.status 429 b, .status 200 body] = .ok (body, 1) := by
  refine ⟨?_, fun h => retry_all_transient fuel rs retries h, ?_, ?_⟩
  · intro h4 h5 h429
    simp only [retryLoop]
    rw [if_neg (by omega), if_neg (by omega)]
  · simp [backoffDelays, List.range_succ]
  · rfl

/-- Claim C4 witness: concrete outcomes for the three scenarios, a 404
rejected at once, five transient outcomes exhausting the budget, and a
429 then 200 succeeding with one retry. -/
theorem retry_policy_witness :
    retryLoop 5 [.status 404 "not found"] 0 = .error (.rejected 404 "not found") ∧
    retryLoop 5 [.timeout, .status 500 "e", .status 503 "e", .status 429 "r", .timeout] 0 =
      .error .unavailable ∧
    executeWithRetry [.status 429 "slow down", .status 200 "page one"] =
      .ok ("page one", 1) := by
  have h := retry_policy 4 0 404 "not found" "page one" []
    [.timeout, .status 500 "e", .status 503 "e", .status 429 "r", .timeout]
  have h2 := retry_policy 5 0 404 "not found" "page one" []
    [.timeout, .status 500 "e", .status 503 "e", .status 429 "r", .timeout]
  refine ⟨h.1 (by omega) (by omega) (by omega), h2.2.1 (by decide), ?_⟩
  have h3 := retry_policy 0 0 0 "slow down" "page one" [] []
  exact h3.2.2.2

theorem range_one_eq : List.range 1 = [0] := rfl

theorem range_map_shift (a c : Nat) :
    ∀ k, List.map (fun i => a + c * i) (List.range (k + 1)) =
      a :: List.map (fun i => a + c + c * i) (List.range k) := by
  intro k
  induction k with
  | zero => simp [range_one_eq]
  | succ k ih =>
    calc List.map (fun i => a + c * i) (List.range (k + 1 + 1))
        = List.map (fun i => a + c * i) (List.range (k + 1)) ++ [a + c * (k + 1)] := by
          rw [List.range_succ, List.map_append]
          rfl
      _ = (a :: List.map (fun i => a + c + c * i) (List.range k)) ++ [a + c * (k + 1)] := by
          rw [ih]
      _ = a :: (List.map (fun i => a + c + c * i) (List.range k) ++ [a + c + c * k]) := by
          have harith : a + c * (k + 1) = a + c + c * k := by ring
          rw [harith, List.cons_append]
      _ = a :: List.map (fun i => a + c + c * i) (List.range (k + 1)) := by
          rw [List.range_succ, List.map_append]
          rfl

theorem qloop_full (data : List Record) (cap : Nat) (hcap : 0 < cap) :
    ∀ (fuel skip remaining : Nat), 0 < remaining → remaining ≤ fuel →
      skip + remaining ≤ data.length →
      qloop data cap fuel skip remaining =
        ((List.range ((remaining - 1) / cap + 1)).map (fun i => skip + cap * i),
         (data.drop skip).take remaining) := by
  intro fuel
  induction fuel with
  | zero => intro skip remaining h1 h2 _; exact absurd h1 (by omega)
  | succ fuel ih =>
    intro skip remaining h1 h2 h3
    have hne : ¬remaining = 0 := by omega
    have hplen : ((data.drop skip).take (min cap remaining)).length = min cap remaining := by
      rw [List.length_take, List.length_drop]
      omega
    rw [qloop, if_neg hne, hplen]
    by_cases hlt : remaining < cap
    · have hmin : min cap remaining = remaining := by omega
      rw [if_pos (by omega), hmin]
      have hdiv : (remaining - 1) / cap = 0 := Nat.div_eq_of_lt (by omega)
      rw [hdiv]
      simp [range_one_eq]
    · have hmin : min cap remaining = cap := by omega
      rw [if_neg (by omega), hmin]
      by_cases heq : remaining = cap
      · rw [heq, Nat.sub_self, qloop_zero]
        have hdiv : (cap - 1) / cap = 0 := Nat.div_eq_of_lt (by omega)
        rw [hdiv]
        simp [range_one_eq]
      · have hih := ih (skip + cap) (remaining - cap) (by omega) (by omega) (by omega)
        rw [hih]
        simp only [Prod.mk.injEq]
        constructor
        · have hk : (remaining - 1) / cap = (remaining - cap - 1) / cap + 1 := by
            have he : remaining - 1 = (remaining - cap - 1) + cap := by omega
            rw [he, Nat.add_div_right _ hcap]
          rw [hk]
          exact (range_map_shift skip cap ((remaining - cap - 1) / cap + 1)).symm
        · have hdd : (data.drop skip).drop cap = data.drop (skip + cap) :=
            List.drop_drop cap skip data
          rw [← hdd, ← List.take_add]
          have he2 : cap + (remaining - cap) = remaining := by omega
          rw [he2]

theorem qloop_exhaust (data : List Record) (cap : Nat) (hcap : 0 < cap) :
    ∀ (fuel skip remaining : Nat), remaining ≤ fuel → skip ≤ data.length →
      data.length < skip + remaining →
      qloop data cap fuel skip remaining =
        ((List.range ((data.length - skip) / cap + 1)).map (fun i => skip + cap * i),
         data.drop skip) := by
  intro fuel
  induction fuel with
  | zero => intro skip remaining h2 h3 h4; exact absurd h4 (by omega)
  | succ fuel ih =>
    intro skip remaining h2 h3 h4
    have hne : ¬remaining = 0 := by omega
    have hplen : ((data.drop skip).take (min cap remaining)).length
        = min (min cap remaining) (data.length - skip) := by
      rw [List.length_take, List.length_drop]
    rw [qloop, if_neg hne, hplen]
    by_cases hav : data.length - skip < cap
    · have hmin2 : min (min cap remaining) (data.length - skip) = data.length - skip := by
        omega
      rw [hmin2, if_pos (by omega)]
      have hrow : (data.drop skip).take (min cap remaining) = data.drop skip :=
        List.take_of_length_le (by rw [List.length_drop]; omega)
      have hdiv : (data.length - skip) / cap = 0 := Nat.div_eq_of_lt hav
      rw [hrow, hdiv]
      simp [range_one_eq]
    · have hmin2 : min (min cap remaining) (data.length - skip) = cap := by omega
      rw [hmin2, if_neg (by omega)]
      have hih := ih (skip + cap) (remaining - cap) (by omega) (by omega) (by omega)
      rw [hih]
      simp only [Prod.mk.injEq]
      constructor
      · have he2 : data.length - (skip + cap) = data.length - skip - cap := by omega
        have hk : (data.length - skip) / cap = (data.length - skip - cap) / cap + 1 := by
          have he : data.length - skip = (data.length - skip - cap) + cap := by omega
          conv_lhs => rw [he]
          rw [Nat.add_div_right _ hcap]
        rw [he2, hk]
        exact (range_map_shift skip cap ((data.length - skip - cap) / cap + 1)).symm
      · have hmca : min cap remaining = cap := by omega
        have hdd : (data.drop skip).drop cap = data.drop (skip + cap) :=
          List.drop_drop cap skip data
        rw [hmca, ← hdd]
        exact List.take_append_drop cap (data.drop skip)

/-- Claim C2: the pagination loop issues page requests whose skip offsets
increase by the cap, 0, cap, 2 cap and so on; with enough data it stops
exactly when top records have been accumulated, after the ceiling of top
over cap requests, and with fewer records than top it stops at the first
short page having accumulated everything. -/
theorem executeQuery_pagination (data : List Record) (cap top : Nat)
    (hcap : 0 < cap) (htop : 0 < top) :
    (top ≤ data.length →
      (executeQuery data cap top).1 =
        (List.range ((top + cap - 1) / cap)).map (fun i => cap * i) ∧
      ((executeQuery data cap top).2.map normalizeRecord).length = top) ∧
    (data.length < top →
      (executeQuery data cap top).1 =
        (List.range (data.length / cap + 1)).map (fun i => cap * i) ∧
      (executeQuery data cap top).2 = data) := by
  constructor
  · intro hle
    have h := qloop_full data cap hcap top 0 top htop (le_refl top) (by omega)
    unfold executeQuery
    rw [h]
    constructor
    · have hc : (top + cap - 1) / cap = (top - 1) / cap + 1 := by
        have he : top + cap - 1 = (top - 1) + cap := by omega
        rw [he, Nat.add_div_right _ hcap]
      rw [hc]
      simp
    · simp [List.length_take, List.length_drop]
      omega
  · intro hgt
    have h := qloop_exhaust data cap hcap top 0 top (le_refl top) (by omega) (by omega)
    unfold executeQuery
    rw [h]
    constructor
    · simp
    · simp

/-- Claim C2 witness: a stub catalog of 12 records with a page cap of 4 and
top 10, two and a half pages, yields exactly 3 requests at skips 0, 4, 8
and 10 normalized rows. -/
theorem executeQuery_pagination_witness :
    (executeQuery ((List.range 12).map (fun i => ⟨[("Id", toString i)], []⟩)) 4 10).1 =
      [0, 4, 8] ∧
    ((executeQuery ((List.range 12).map (fun i => ⟨[("Id", toString i)], []⟩)) 4 10).2.map
      normalizeRecord).length = 10 := by
  have h := (executeQuery_pagination
    ((List.range 12).map (fun i => ⟨[("Id", toString i)], []⟩)) 4 10
    (by omega) (by omega)).1 (by simp)
  exact ⟨h.1.trans (by decide), h.2⟩

end Phidown
